import Mathlib

/-!
Shallow embedding of `td::ObjectPool<DataT>` (src/tdutils/td/utils/ObjectPool.h).

The pool is modelled as an explicit state: a flat list of `Storage` slots
(addresses are list indices; a chunk of `CHUNK_SIZE` contiguous slots is a
contiguous index range), the lock-free free-list head, the chunk-tracking
list head, the `storage_count_` counter and the `check_empty_flag_`.
Raw `Storage *` pointers become `Option Nat` slot indices (`none` = nullptr).

We give the sequential (single-thread) semantics: each compare-and-swap
loop succeeds on its first attempt, so it is an atomic read-modify-write.
The memory-ordering annotations of the source, which have no effect on the
sequential state, are recorded separately as `MemOrder` constants (one per
atomic operation of the source), and the intra-release ordering of
`destroy_data` / `release` is recorded as an event trace.

`int32` arithmetic (the generation counter and `storage_count_` are
`std::atomic<int32>` and `fetch_add` wraps) is modelled on `Int` with an
explicit wrap into `[-2^31, 2^31)`.

Undefined behaviour (dereferencing a null or out-of-range pointer) is
modelled by returning `none` from the operation.
-/

/-- The capabilities `ObjectPool` requires of `DataT`: default construction
(`Storage` holds a default-constructed `DataT` until `init_data` assigns it)
and the `clear()` teardown operation invoked by `destroy_data`. -/
structure DataOps (α : Type) where
  dflt : α
  clear : α → α

/-- Two's-complement wrap of an integer into the `int32` range. -/
def wrap32 (x : Int) : Int :=
  (x + 2147483648) % 4294967296 - 2147483648

/-- Addition on `int32` with wraparound, as performed by `std::atomic<int32>.fetch_add`. -/
def int32_add (a b : Int) : Int :=
  wrap32 (a + b)

def INT32_MIN : Int := -2147483648

def INT32_MAX : Int := 2147483647

/-- The chunk size: `ObjectPool::CHUNK_SIZE = 64`. -/
def CHUNK_SIZE : Nat := 64

/-- Models `ObjectPool::Storage`: payload `data`, free-list link `next`
(`Storage *next = nullptr`), and the generation counter
(`std::atomic<int32> generation{1}`). -/
structure Storage (α : Type) where
  data : α
  next : Option Nat
  generation : Int
deriving DecidableEq

/-- The state of one `ObjectPool<DataT>` instance: `slots` is the memory
holding every allocated `Storage` (indices are addresses), `head` is
`head_`, `checkEmptyFlag` is `check_empty_flag_`, `chunkList` is
`chunk_list_`, and `storageCount` is `storage_count_`. -/
structure PoolState (α : Type) where
  slots : List (Storage α)
  head : Option Nat
  checkEmptyFlag : Bool
  chunkList : Option Nat
  storageCount : Int
deriving DecidableEq

/-- A default-constructed `ObjectPool`: no chunks, empty free list,
`check_empty_flag_ = false`, `storage_count_ = 0`. -/
def PoolState.start (α : Type) : PoolState α :=
  ⟨[], none, false, none, 0⟩

/-- Models `ObjectPool::WeakPtr`: stored generation and slot reference. -/
structure WeakPtr where
  generation : Int
  storage : Option Nat
deriving DecidableEq

/-- Models `WeakPtr()` default constructor: `generation_(-1), storage_(nullptr)`. -/
def WeakPtr.mkEmpty : WeakPtr := ⟨-1, none⟩

/-- Models `WeakPtr::clear()`: sets `generation_ = -1` and `storage_ = nullptr`. -/
def WeakPtr.clear (_ : WeakPtr) : WeakPtr := ⟨-1, none⟩

/-- Models `WeakPtr::empty()`. -/
def WeakPtr.isEmpty (w : WeakPtr) : Bool := w.storage.isNone

/-- Models `WeakPtr::is_alive()`: false if `storage_` is null; otherwise an acquire
fence and a comparison of `generation_` with the slot's current generation
(relaxed load). Dereferencing a dangling slot pointer would be undefined,
modelled as `none`. -/
def WeakPtr.isAlive (s : PoolState α) (w : WeakPtr) : Option Bool :=
  match w.storage with
  | none => some false
  | some i => (s.slots[i]?).map (fun st => w.generation == st.generation)

/-- Models `WeakPtr::is_alive_unsafe()`: the same comparison without the fence. -/
def WeakPtr.isAliveUnsafe (s : PoolState α) (w : WeakPtr) : Option Bool :=
  match w.storage with
  | none => some false
  | some i => (s.slots[i]?).map (fun st => w.generation == st.generation)

/-- Models `ObjectPool::OwnerPtr`: slot reference `storage_` and pool reference
`parent_`. There is a single pool in the model, so the pool pointer is a
Bool (`true` = points to the pool, `false` = nullptr). -/
structure OwnerPtr where
  storage : Option Nat
  parent : Bool
deriving DecidableEq

/-- Models `OwnerPtr()` default constructor: both pointers null. -/
def OwnerPtr.mkEmpty : OwnerPtr := ⟨none, false⟩

/-- Models `OwnerPtr::empty()`. -/
def OwnerPtr.isEmpty (o : OwnerPtr) : Bool := o.storage.isNone

/-- Update the element at index `i` of a list in place (pointer write to a
slot); out-of-range leaves the list unchanged. -/
def listUpdate (l : List β) (i : Nat) (f : β → β) : List β :=
  match l[i]? with
  | none => l
  | some x => l.set i (f x)

/-- Apply an in-place mutation to slot `i` of the pool memory. -/
def updateSlot (s : PoolState α) (i : Nat) (f : Storage α → Storage α) : PoolState α :=
  { s with slots := listUpdate s.slots i f }

/-- Models `Storage::init_data(args...)`: `data = DataT(args...)` — assigns the
constructed value, leaving `next` and `generation` untouched. -/
def initData (v : α) (st : Storage α) : Storage α :=
  ⟨v, st.next, st.generation⟩

/-- Models `Storage::destroy_data()`: `generation.fetch_add(1, relaxed)` (with
`int32` wraparound), a release fence (no sequential state effect), then
`data.clear()`. -/
def destroyData (D : DataOps α) (st : Storage α) : Storage α :=
  ⟨D.clear st.data, st.next, int32_add st.generation 1⟩

/-- The `Storage` produced at offset `k` of a fresh chunk based at `base`,
after `allocate_chunk` has run all its loops: every slot is
default-constructed (`data` default, `generation = 1`); slots
`1 .. CHUNK_SIZE-3` link to the next offset; slot `CHUNK_SIZE-2` (the mini
free list's tail) ends up pointing at the free-list head observed at push
time; slot `CHUNK_SIZE-1` is the chunk-tracking node and points at the
chunk list head observed at push time; slot `0`'s link keeps its default. -/
def mkChunkSlot (D : DataOps α) (base k : Nat) (oldHead oldChunkList : Option Nat) : Storage α :=
  ⟨D.dflt,
    if 1 ≤ k ∧ k + 1 ≤ CHUNK_SIZE - 2 then some (base + k + 1)
    else if k = CHUNK_SIZE - 2 then oldHead
    else if k = CHUNK_SIZE - 1 then oldChunkList
    else none,
    1⟩

/-- Models `ObjectPool::allocate_chunk()`: allocates `CHUNK_SIZE` fresh slots at
the end of memory, bumps `storage_count_` by `CHUNK_SIZE`, links offsets
`1 .. CHUNK_SIZE-2` and pushes them onto the free list, pushes offset
`CHUNK_SIZE-1` onto the chunk-tracking list, and returns offset `0` to the
caller. Returns the new state and the returned slot's index. -/
def allocateChunk (D : DataOps α) (s : PoolState α) : PoolState α × Nat :=
  let base := s.slots.length
  ⟨⟨s.slots ++ (List.range CHUNK_SIZE).map (fun k => mkChunkSlot D base k s.head s.chunkList),
    some (base + 1),
    s.checkEmptyFlag,
    some (base + (CHUNK_SIZE - 1)),
    int32_add s.storageCount (Int.ofNat CHUNK_SIZE)⟩,
  base⟩

/-- Models `ObjectPool::get_storage()`: pop the free-list head, or allocate a new
chunk when the free list is empty. Reading `res->next` through a dangling
head pointer would be undefined, modelled as `none`. -/
def getStorage (D : DataOps α) (s : PoolState α) : Option (PoolState α × Nat) :=
  match s.head with
  | none => some (allocateChunk D s)
  | some res => (s.slots[res]?).map (fun st => ⟨{ s with head := st.next }, res⟩)

/-- Models `ObjectPool::create(args...)`: acquire a slot, `init_data` it, wrap it
in an `OwnerPtr(storage, this)`. -/
def ObjectPool.create (D : DataOps α) (s : PoolState α) (v : α) : Option (PoolState α × OwnerPtr) :=
  (getStorage D s).map (fun p => ⟨updateSlot p.1 p.2 (initData v), ⟨some p.2, true⟩⟩)

/-- Models `ObjectPool::create_empty()`: acquire a slot without constructing the
element. -/
def ObjectPool.createEmpty (D : DataOps α) (s : PoolState α) : Option (PoolState α × OwnerPtr) :=
  (getStorage D s).map (fun p => ⟨p.1, ⟨some p.2, true⟩⟩)

/-- Models `ObjectPool::set_check_empty(bool)`: stores the flag. -/
def ObjectPool.setCheckEmpty (s : PoolState α) (b : Bool) : PoolState α :=
  { s with checkEmptyFlag := b }

/-- Models `ObjectPool::release_storage(storage)`: push slot `i` onto the free
list (`storage->next = head; head = storage`). -/
def releaseStorage (s : PoolState α) (i : Nat) : PoolState α :=
  { updateSlot s i (fun st => ⟨st.data, s.head, st.generation⟩) with head := some i }

/-- Models `ObjectPool::release(OwnerPtr &&)`: `storage = owner_ptr.release()`,
then `storage->destroy_data()`, then `release_storage(storage)`. When the
handle is empty, `storage` is null and `storage->destroy_data()`
dereferences null — undefined behaviour, modelled as `none`; likewise for
a dangling slot index. -/
def ObjectPool.release (D : DataOps α) (s : PoolState α) (o : OwnerPtr) : Option (PoolState α) :=
  match o.storage with
  | none => none
  | some i =>
    match s.slots[i]? with
    | none => none
    | some _ => some (releaseStorage (updateSlot s i (destroyData D)) i)

/-- Models `OwnerPtr::reset()` (also the body of `~OwnerPtr()`): a no-op when
`storage_` is null; otherwise clears `storage_` first and then hands the
captured slot to `parent_->release(...)` (undefined when `parent_` is
null, modelled as `none`). Returns the new pool state and the handle as it
is left afterwards. -/
def OwnerPtr.reset (D : DataOps α) (s : PoolState α) (o : OwnerPtr) : Option (PoolState α × OwnerPtr) :=
  match o.storage with
  | none => some ⟨s, o⟩
  | some i =>
    if o.parent then
      (ObjectPool.release D s ⟨some i, true⟩).map (fun r => ⟨r, ⟨none, o.parent⟩⟩)
    else none

/-- Models `OwnerPtr::get_weak()`: pairs the slot's current generation (relaxed
load) with the slot reference. Undefined on an empty handle (null
dereference), modelled as `none`. -/
def OwnerPtr.getWeak (s : PoolState α) (o : OwnerPtr) : Option WeakPtr :=
  match o.storage with
  | none => none
  | some i => (s.slots[i]?).map (fun st => ⟨st.generation, some i⟩)

/-- Models `OwnerPtr::operator*` / `get()`: read the element. Undefined on an
empty handle, modelled as `none`. -/
def OwnerPtr.deref (s : PoolState α) (o : OwnerPtr) : Option α :=
  match o.storage with
  | none => none
  | some i => (s.slots[i]?).map Storage.data

/-- Models `OwnerPtr::operator=(OwnerPtr &&other)` with `this != &other`: copies
`other`'s two pointers into the target and nulls `other`'s. It reads or
writes nothing else — in particular not the pool — so the state is
returned unchanged. Result: (pool state, new target, new source). -/
def OwnerPtr.moveAssign (s : PoolState α) (_t o : OwnerPtr) : PoolState α × OwnerPtr × OwnerPtr :=
  ⟨s, ⟨o.storage, o.parent⟩, ⟨none, false⟩⟩

/-- The chain of slot indices reachable from a free-list head by following
`next` links (with fuel, since arbitrary states could have cyclic links;
reachable states do not). -/
def freeChain (slots : List (Storage α)) : Nat → Option Nat → List Nat
  | _, none => []
  | 0, some _ => []
  | fuel + 1, some i =>
    i :: (match slots[i]? with
          | none => []
          | some st => freeChain slots fuel st.next)

/-- The chunk-walk of `~ObjectPool()`: starting from `chunk_list_`, each
tracking node at address `node` yields the chunk base `node - (CHUNK_SIZE - 1)`
to `delete[]`, then follows `node->next`. Returns the list of freed chunk
bases (with fuel for totality). -/
def chunkWalk (slots : List (Storage α)) : Nat → Option Nat → List Nat
  | _, none => []
  | 0, some _ => []
  | fuel + 1, some node =>
    (node - (CHUNK_SIZE - 1)) ::
      (match slots[node]? with
       | none => []
       | some st => chunkWalk slots fuel st.next)

/-- The chunks freed by `~ObjectPool()` on a given state. -/
def ObjectPool.destructorChunks (s : PoolState α) : List Nat :=
  chunkWalk s.slots (s.slots.length + 1) s.chunkList

/-- The C++ memory orderings, as annotated in the source. -/
inductive MemOrder
  | relaxed
  | consume
  | acquire
  | release
  | acqRel
  | seqCst
deriving DecidableEq

/-- Ordering of the `head_.load` in `release_storage` (line 301). -/
def releaseStorage_head_load_order : MemOrder := MemOrder.relaxed

/-- Success ordering of the `head_.compare_exchange_weak` in
`release_storage` (line 303). -/
def releaseStorage_cas_success_order : MemOrder := MemOrder.release

/-- Failure ordering of the `head_.compare_exchange_weak` in
`release_storage` (line 303). -/
def releaseStorage_cas_failure_order : MemOrder := MemOrder.relaxed

/-- Ordering of the first `head_.load` in `get_storage` (line 277). -/
def getStorage_first_load_order : MemOrder := MemOrder.acquire

/-- Ordering of the in-loop `head_.load` in `get_storage` (line 285). -/
def getStorage_loop_load_order : MemOrder := MemOrder.acquire

/-- Success ordering of the `head_.compare_exchange_weak` in `get_storage`
(line 290). -/
def getStorage_cas_success_order : MemOrder := MemOrder.release

/-- Failure ordering of the `head_.compare_exchange_weak` in `get_storage`
(line 290). -/
def getStorage_cas_failure_order : MemOrder := MemOrder.relaxed

/-- Ordering of `generation.fetch_add` in `Storage::destroy_data` (line 223). -/
def destroyData_fetch_add_order : MemOrder := MemOrder.relaxed

/-- Ordering of the fence in `Storage::destroy_data` (line 224). -/
def destroyData_fence_order : MemOrder := MemOrder.release

/-- Ordering of the fence in `WeakPtr::is_alive` (line 66). -/
def isAlive_fence_order : MemOrder := MemOrder.acquire

/-- Ordering of the generation load in `WeakPtr::is_alive` (line 67). -/
def isAlive_generation_load_order : MemOrder := MemOrder.relaxed

/-- Events performed by element retirement, in program order. -/
inductive Ev
  | genIncrement (o : MemOrder)
  | fence (o : MemOrder)
  | dataClear
  | freeListPush
deriving DecidableEq

/-- The ordered events of `Storage::destroy_data()`: the relaxed
`generation.fetch_add(1)` (line 223), the release fence (line 224), then
`data.clear()` (line 225). -/
def destroyDataTrace : List Ev :=
  [Ev.genIncrement MemOrder.relaxed, Ev.fence MemOrder.release, Ev.dataClear]

/-- The ordered events of `ObjectPool::release`: `destroy_data()` then
`release_storage(storage)`. -/
def releaseTrace : List Ev :=
  destroyDataTrace ++ [Ev.freeListPush]

/-- Every slot's generation is positive. -/
def GenInv (s : PoolState α) : Prop :=
  ∀ st ∈ s.slots, 1 ≤ st.generation

/-- Every slot's generation is strictly below `INT32_MAX` (the spec's
standing assumption that the 32-bit counter is never exhausted). -/
def GenBound (s : PoolState α) : Prop :=
  ∀ st ∈ s.slots, st.generation < INT32_MAX

instance : DecidablePred (GenInv (α := α)) := fun s =>
  inferInstanceAs (Decidable (∀ st ∈ s.slots, 1 ≤ st.generation))

instance : DecidablePred (GenBound (α := α)) := fun s =>
  inferInstanceAs (Decidable (∀ st ∈ s.slots, st.generation < INT32_MAX))

/-- The `DataT = Nat` instantiation used for concrete executions: default
value 0, `clear()` resets to 0. -/
def natOps : DataOps Nat := ⟨0, fun _ => 0⟩

/-- A concrete one-slot pool whose slot 0 is held by an owner (the free
list is empty): data 7, generation 1. -/
def exPool1 : PoolState Nat :=
  ⟨[⟨7, none, 1⟩], none, false, none, 1⟩

/-- A concrete two-slot pool: slot 0 held by an owner (data 5,
generation 3), slot 1 on the free list (generation 2). -/
def exPool2 : PoolState Nat :=
  ⟨[⟨5, none, 3⟩, ⟨0, none, 2⟩], some 1, false, none, 2⟩
theorem listUpdate_length (l : List β) (i : Nat) (f : β → β) :
    (listUpdate l i f).length = l.length := by
  unfold listUpdate
  cases h : l[i]? with
  | none => rfl
  | some x => simp

theorem listUpdate_getElem? (l : List β) (i j : Nat) (f : β → β) :
    (listUpdate l i f)[j]? = if j = i then (l[j]?).map f else l[j]? := by
  unfold listUpdate
  cases h : l[i]? with
  | none =>
    by_cases hj : j = i
    · subst hj; simp [h]
    · simp [hj]
  | some x =>
    have hlen : i < l.length := by
      rcases List.getElem?_eq_some.mp h with ⟨hl, _⟩
      exact hl
    by_cases hj : j = i
    · subst hj
      rw [List.getElem?_set, if_pos rfl, if_pos hlen, h]
      simp
    · rw [List.getElem?_set, if_neg (fun hh => hj hh.symm), if_neg hj]
theorem int32_add_one_eq (g : Int) (h1 : INT32_MIN ≤ g) (h2 : g < INT32_MAX) :
    int32_add g 1 = g + 1 := by
  simp only [int32_add, wrap32, INT32_MIN, INT32_MAX] at *
  omega

theorem int32_add_one_ne (g : Int) (h1 : INT32_MIN ≤ g) (h2 : g ≤ INT32_MAX) :
    int32_add g 1 ≠ g := by
  simp only [int32_add, wrap32, INT32_MIN, INT32_MAX] at *
  omega

theorem int32_add_one_pos (g : Int) (h1 : 1 ≤ g) (h2 : g < INT32_MAX) :
    1 ≤ int32_add g 1 := by
  simp only [int32_add, wrap32, INT32_MAX] at *
  omega

theorem updateSlot_slots_getElem? (s : PoolState α) (i j : Nat) (f : Storage α → Storage α) :
    (updateSlot s i f).slots[j]? = if j = i then (s.slots[j]?).map f else s.slots[j]? :=
  listUpdate_getElem? ..

theorem updateSlot_length (s : PoolState α) (i : Nat) (f : Storage α → Storage α) :
    (updateSlot s i f).slots.length = s.slots.length :=
  listUpdate_length ..

theorem allocateChunk_slots_old (D : DataOps α) (s : PoolState α) (j : Nat)
    (hj : j < s.slots.length) :
    (allocateChunk D s).1.slots[j]? = s.slots[j]? := by
  simp only [allocateChunk, List.getElem?_append, hj, if_pos]

theorem allocateChunk_slots_new (D : DataOps α) (s : PoolState α) (k : Nat)
    (hk : k < CHUNK_SIZE) :
    (allocateChunk D s).1.slots[s.slots.length + k]? =
      some (mkChunkSlot D s.slots.length k s.head s.chunkList) := by
  simp only [allocateChunk, List.getElem?_append]
  rw [if_neg (by omega)]
  rw [Nat.add_sub_cancel_left]
  rw [List.getElem?_map, List.getElem?_range hk]
  rfl

theorem allocateChunk_length (D : DataOps α) (s : PoolState α) :
    (allocateChunk D s).1.slots.length = s.slots.length + CHUNK_SIZE := by
  simp [allocateChunk]

theorem getStorage_head_none (D : DataOps α) (s : PoolState α) (hh : s.head = none) :
    getStorage D s = some (allocateChunk D s) := by
  unfold getStorage
  rw [hh]

theorem getStorage_head_some (D : DataOps α) (s : PoolState α) (res : Nat)
    (hh : s.head = some res) :
    getStorage D s = (s.slots[res]?).map (fun st => ⟨{ s with head := st.next }, res⟩) := by
  unfold getStorage
  rw [hh]

theorem release_eq_some (D : DataOps α) (s : PoolState α) (i : Nat) (st : Storage α)
    (hst : s.slots[i]? = some st) :
    ObjectPool.release D s ⟨some i, true⟩ =
      some (releaseStorage (updateSlot s i (destroyData D)) i) := by
  dsimp only [ObjectPool.release]
  rw [hst]

theorem getStorage_cases (D : DataOps α) (s : PoolState α) (r : PoolState α) (i : Nat)
    (h : getStorage D s = some (r, i)) :
    (s.head = none ∧ (r, i) = allocateChunk D s) ∨
    (∃ st, s.head = some i ∧ s.slots[i]? = some st ∧ r = { s with head := st.next }) := by
  cases hh : s.head with
  | none =>
    rw [getStorage_head_none D s hh] at h
    exact Or.inl ⟨rfl, (Option.some_injective _ h).symm⟩
  | some res =>
    rw [getStorage_head_some D s res hh] at h
    cases hst : s.slots[res]? with
    | none => rw [hst] at h; exact Option.noConfusion h
    | some st =>
      rw [hst] at h
      simp only [Option.map_some'] at h
      have h2 := Option.some_injective _ h
      have hi : res = i := congrArg Prod.snd h2
      subst hi
      exact Or.inr ⟨st, rfl, hst, (congrArg Prod.fst h2).symm⟩

theorem getStorage_frame (D : DataOps α) (s : PoolState α) (r : PoolState α) (i : Nat)
    (h : getStorage D s = some (r, i)) (j : Nat) (hj : j < s.slots.length) :
    r.slots[j]? = s.slots[j]? := by
  rcases getStorage_cases D s r i h with ⟨_, heq⟩ | ⟨st, _, _, heq⟩
  · have hr : r = (allocateChunk D s).1 := congrArg Prod.fst heq
    rw [hr, allocateChunk_slots_old D s j hj]
  · rw [heq]

theorem create_gen_frame (D : DataOps α) (s : PoolState α) (v : α) (r : PoolState α)
    (o : OwnerPtr) (h : ObjectPool.create D s v = some (r, o)) (j : Nat)
    (hj : j < s.slots.length) :
    (r.slots[j]?).map Storage.generation = (s.slots[j]?).map Storage.generation := by
  unfold ObjectPool.create at h
  cases hg : getStorage D s with
  | none => rw [hg] at h; exact Option.noConfusion h
  | some p =>
    rw [hg] at h
    simp only [Option.map_some'] at h
    have h2 := Option.some_injective _ h
    have h1 : updateSlot p.1 p.2 (initData v) = r := congrArg Prod.fst h2
    rw [← h1, updateSlot_slots_getElem?]
    by_cases hji : j = p.2
    · rw [if_pos hji, getStorage_frame D s p.1 p.2 (by rw [hg]) j hj]
      cases s.slots[j]? <;> rfl
    · rw [if_neg hji, getStorage_frame D s p.1 p.2 (by rw [hg]) j hj]

theorem createEmpty_gen_frame (D : DataOps α) (s : PoolState α) (r : PoolState α)
    (o : OwnerPtr) (h : ObjectPool.createEmpty D s = some (r, o)) (j : Nat)
    (hj : j < s.slots.length) :
    (r.slots[j]?).map Storage.generation = (s.slots[j]?).map Storage.generation := by
  unfold ObjectPool.createEmpty at h
  cases hg : getStorage D s with
  | none => rw [hg] at h; exact Option.noConfusion h
  | some p =>
    rw [hg] at h
    simp only [Option.map_some'] at h
    have h2 := Option.some_injective _ h
    have h1 : p.1 = r := congrArg Prod.fst h2
    rw [← h1, getStorage_frame D s p.1 p.2 (by rw [hg]) j hj]

theorem release_spec (D : DataOps α) (s : PoolState α) (i : Nat) (st : Storage α)
    (hst : s.slots[i]? = some st) :
    ∃ r, ObjectPool.release D s ⟨some i, true⟩ = some r ∧
      r.head = some i ∧
      r.slots[i]? = some ⟨D.clear st.data, s.head, int32_add st.generation 1⟩ ∧
      (∀ j, j ≠ i → r.slots[j]? = s.slots[j]?) ∧
      r.slots.length = s.slots.length ∧
      r.checkEmptyFlag = s.checkEmptyFlag ∧
      r.chunkList = s.chunkList ∧
      r.storageCount = s.storageCount := by
  rw [release_eq_some D s i st hst]
  refine ⟨_, rfl, rfl, ?_, ?_, ?_, rfl, rfl, rfl⟩
  · show (listUpdate (updateSlot s i (destroyData D)).slots i _)[i]? = _
    rw [listUpdate_getElem?, if_pos rfl, updateSlot_slots_getElem?, if_pos rfl, hst]
    rfl
  · intro j hj
    show (listUpdate (updateSlot s i (destroyData D)).slots i _)[j]? = _
    rw [listUpdate_getElem?, if_neg hj, updateSlot_slots_getElem?, if_neg hj]
  · show (listUpdate (updateSlot s i (destroyData D)).slots i _).length = _
    rw [listUpdate_length, updateSlot_length]

theorem release_eq_none (D : DataOps α) (s : PoolState α) (i : Nat)
    (hst : s.slots[i]? = none) :
    ObjectPool.release D s ⟨some i, true⟩ = none := by
  dsimp only [ObjectPool.release]
  rw [hst]

/-- Claim C1, as stated, is false: retirement does not run teardown first.
`Storage::destroy_data` increments the generation (relaxed) and issues the
release fence BEFORE `data.clear()`; the claimed order
teardown-then-increment does not match the recorded event trace of
`ObjectPool::release`. -/
theorem C1_counterexample :
    releaseTrace ≠ [Ev.dataClear, Ev.genIncrement MemOrder.relaxed,
      Ev.fence MemOrder.release, Ev.freeListPush] := by
  decide

/-- Claim C1 (amended): for every non-empty owning handle, `ObjectPool::release`
first increments the slot's generation (relaxed) and issues a release fence,
then runs the element's teardown (`data.clear()`), and finally returns the
slot to the free list; the generation is bumped by 1 (as `int32`) and the
slot becomes the free-list head. -/
theorem C1_release_order (D : DataOps α) (s : PoolState α) (i : Nat) (st : Storage α)
    (hst : s.slots[i]? = some st) :
    releaseTrace = [Ev.genIncrement MemOrder.relaxed, Ev.fence MemOrder.release,
      Ev.dataClear, Ev.freeListPush] ∧
    ∃ r, ObjectPool.release D s ⟨some i, true⟩ = some r ∧
      (r.slots[i]?).map Storage.generation = some (int32_add st.generation 1) ∧
      (r.slots[i]?).map Storage.data = some (D.clear st.data) ∧
      r.head = some i := by
  refine ⟨rfl, ?_⟩
  obtain ⟨r, hr, hhead, hslot, _, _, _, _, _⟩ := release_spec D s i st hst
  exact ⟨r, hr, by rw [hslot]; rfl, by rw [hslot]; rfl, hhead⟩

/-- Witness for C1_release_order at a concrete pool. -/
theorem C1_release_order_witness :
    exPool1.slots[0]? = some ⟨7, none, 1⟩ ∧
    (releaseTrace = [Ev.genIncrement MemOrder.relaxed, Ev.fence MemOrder.release,
      Ev.dataClear, Ev.freeListPush] ∧
    ∃ r, ObjectPool.release natOps exPool1 ⟨some 0, true⟩ = some r ∧
      (r.slots[0]?).map Storage.generation = some (int32_add 1 1) ∧
      (r.slots[0]?).map Storage.data = some (natOps.clear 7) ∧
      r.head = some 0) :=
  ⟨by decide, C1_release_order natOps exPool1 0 ⟨7, none, 1⟩ (by decide)⟩

/-- Claim C2: `is_alive()` returns false on an empty observing handle, and
otherwise returns true exactly when the stored generation equals the slot's
current generation. -/
theorem C2_is_alive (s : PoolState α) (w : WeakPtr) :
    (w.storage = none → WeakPtr.isAlive s w = some false) ∧
    (∀ i st, w.storage = some i → s.slots[i]? = some st →
      (WeakPtr.isAlive s w = some true ↔ w.generation = st.generation)) := by
  refine ⟨fun h => ?_, fun i st hi hst => ?_⟩
  · unfold WeakPtr.isAlive
    rw [h]
  · unfold WeakPtr.isAlive
    rw [hi]
    show Option.map (fun st => w.generation == st.generation) s.slots[i]? = some true ↔ _
    rw [hst]
    simp

/-- Witness for C2_is_alive: the empty handle, and a live and a stale
handle on a concrete pool. -/
theorem C2_is_alive_witness :
    (WeakPtr.isAlive exPool2 WeakPtr.mkEmpty = some false) ∧
    (WeakPtr.isAlive exPool2 ⟨3, some 0⟩ = some true ↔ (3 : Int) = 3) ∧
    (WeakPtr.isAlive exPool2 ⟨1, some 1⟩ = some true ↔ (1 : Int) = 2) :=
  ⟨(C2_is_alive exPool2 WeakPtr.mkEmpty).1 rfl,
   (C2_is_alive exPool2 ⟨3, some 0⟩).2 0 ⟨5, none, 3⟩ rfl (by decide),
   (C2_is_alive exPool2 ⟨1, some 1⟩).2 1 ⟨0, none, 2⟩ rfl (by decide)⟩

/-- Claim C5, as stated, is false for `Pool.release`: invoking
`ObjectPool::release` on an empty owning handle is not a state-preserving
no-op — `storage = owner_ptr.release()` yields null and
`storage->destroy_data()` dereferences it (undefined behaviour, modelled as
`none`), so no unchanged pool state is produced. -/
theorem C5_counterexample :
    ObjectPool.release natOps (PoolState.start Nat) ⟨none, false⟩ = none := by
  decide

/-- Claim C5 (amended): retiring an empty owning handle through `reset()`
or the destructor is a no-op (the pool state and the handle are unchanged
and no teardown runs), but calling `ObjectPool::release` directly on an
empty handle dereferences null (undefined behaviour, modelled `none`)
rather than being a no-op. -/
theorem C5_empty_retire (D : DataOps α) (s : PoolState α) (o : OwnerPtr)
    (h : o.storage = none) :
    OwnerPtr.reset D s o = some ⟨s, o⟩ ∧ ObjectPool.release D s o = none := by
  obtain ⟨st, p⟩ := o
  cases h
  exact ⟨rfl, rfl⟩

/-- Witness for C5_empty_retire on a concrete pool and the
default-constructed handle. -/
theorem C5_empty_retire_witness :
    OwnerPtr.mkEmpty.storage = none ∧
    (OwnerPtr.reset natOps exPool2 OwnerPtr.mkEmpty = some ⟨exPool2, OwnerPtr.mkEmpty⟩ ∧
     ObjectPool.release natOps exPool2 OwnerPtr.mkEmpty = none) :=
  ⟨rfl, C5_empty_retire natOps exPool2 OwnerPtr.mkEmpty rfl⟩

/-- Claim C7, as stated, is false on the pop side: `get_storage`'s
compare-and-swap uses RELEASE (not acquire) success ordering; only its two
head loads are acquire-ordered. -/
theorem C7_counterexample :
    ¬ (releaseStorage_cas_success_order = MemOrder.release ∧
       getStorage_first_load_order = MemOrder.acquire ∧
       getStorage_loop_load_order = MemOrder.acquire ∧
       getStorage_cas_success_order = MemOrder.acquire) := by
  decide

/-- Claim C7 (amended): the push side (`release_storage`) publishes with a
release-ordered CAS success (relaxed load, relaxed failure); the pop side
(`get_storage`) loads the head with acquire ordering (both the initial and
the in-loop load) — these acquire loads are what make prior writes visible
— while its CAS uses release success and relaxed failure ordering. -/
theorem C7_memory_orders :
    releaseStorage_cas_success_order = MemOrder.release ∧
    releaseStorage_head_load_order = MemOrder.relaxed ∧
    releaseStorage_cas_failure_order = MemOrder.relaxed ∧
    getStorage_first_load_order = MemOrder.acquire ∧
    getStorage_loop_load_order = MemOrder.acquire ∧
    getStorage_cas_success_order = MemOrder.release ∧
    getStorage_cas_failure_order = MemOrder.relaxed := by
  decide

/-- Claim C9: move-assigning an owning handle onto a non-empty target
overwrites the target's slot and pool references with the source's and
empties the source, while the pool state is completely untouched: the
previous slot keeps its generation and data, the free list is unchanged,
and the previous slot is not put on the free list (it is leaked). -/
theorem C9_move_assign (s : PoolState α) (t o : OwnerPtr) (i : Nat)
    (hi : t.storage = some i) :
    (OwnerPtr.moveAssign s t o).1 = s ∧
    (OwnerPtr.moveAssign s t o).2.1 = ⟨o.storage, o.parent⟩ ∧
    (OwnerPtr.moveAssign s t o).2.2 = ⟨none, false⟩ ∧
    ((OwnerPtr.moveAssign s t o).1.slots[i]?).map Storage.generation =
      (s.slots[i]?).map Storage.generation ∧
    ((OwnerPtr.moveAssign s t o).1.slots[i]?).map Storage.data =
      (s.slots[i]?).map Storage.data ∧
    (OwnerPtr.moveAssign s t o).1.head = s.head ∧
    (∀ fuel, freeChain (OwnerPtr.moveAssign s t o).1.slots fuel
        (OwnerPtr.moveAssign s t o).1.head = freeChain s.slots fuel s.head) ∧
    (∀ fuel, i ∉ freeChain s.slots fuel s.head →
      i ∉ freeChain (OwnerPtr.moveAssign s t o).1.slots fuel
        (OwnerPtr.moveAssign s t o).1.head) :=
  ⟨rfl, rfl, rfl, rfl, rfl, rfl, fun _ => rfl, fun _ h => h⟩

/-- Witness for C9_move_assign: moving a handle onto the owner of slot 0
of a concrete pool. -/
theorem C9_move_assign_witness :
    (⟨some 0, true⟩ : OwnerPtr).storage = some 0 ∧
    (OwnerPtr.moveAssign exPool2 ⟨some 0, true⟩ ⟨some 1, true⟩).1 = exPool2 ∧
    (OwnerPtr.moveAssign exPool2 ⟨some 0, true⟩ ⟨some 1, true⟩).2.1 = ⟨some 1, true⟩ :=
  ⟨rfl, (C9_move_assign exPool2 ⟨some 0, true⟩ ⟨some 1, true⟩ 0 rfl).1,
   (C9_move_assign exPool2 ⟨some 0, true⟩ ⟨some 1, true⟩ 0 rfl).2.1⟩

/-- Claim C3: a slot's generation starts at 1 (every slot of a fresh chunk
has generation 1, and a fresh pool has no slots), `release` of a held slot
increments exactly that slot's generation by exactly 1 (under the spec's
standing assumption that the 32-bit counter is not exhausted), and neither
`create`, `create_empty` nor move-assignment changes any existing slot's
generation (`get_weak` and dereference are pure reads in the model and
touch no state at all). -/
theorem C3_generation_protocol (D : DataOps α) :
    (PoolState.start α).slots = [] ∧
    (∀ s : PoolState α, ∀ k, k < CHUNK_SIZE →
      ((allocateChunk D s).1.slots[s.slots.length + k]?).map Storage.generation = some 1) ∧
    (∀ s : PoolState α, ∀ i st, s.slots[i]? = some st →
      INT32_MIN ≤ st.generation → st.generation < INT32_MAX →
      ∃ r, ObjectPool.release D s ⟨some i, true⟩ = some r ∧
        (r.slots[i]?).map Storage.generation = some (st.generation + 1) ∧
        (∀ j, j ≠ i →
          (r.slots[j]?).map Storage.generation = (s.slots[j]?).map Storage.generation)) ∧
    (∀ s : PoolState α, ∀ v r o, ObjectPool.create D s v = some (r, o) →
      ∀ j, j < s.slots.length →
        (r.slots[j]?).map Storage.generation = (s.slots[j]?).map Storage.generation) ∧
    (∀ s : PoolState α, ∀ r o, ObjectPool.createEmpty D s = some (r, o) →
      ∀ j, j < s.slots.length →
        (r.slots[j]?).map Storage.generation = (s.slots[j]?).map Storage.generation) ∧
    (∀ s : PoolState α, ∀ t o, (OwnerPtr.moveAssign s t o).1 = s) := by
  refine ⟨rfl, ?_, ?_, ?_, ?_, fun _ _ _ => rfl⟩
  · intro s k hk
    rw [allocateChunk_slots_new D s k hk]
    rfl
  · intro s i st hst hmin hmax
    obtain ⟨r, hr, _, hslot, hframe, _, _, _, _⟩ := release_spec D s i st hst
    refine ⟨r, hr, ?_, ?_⟩
    · rw [hslot]
      show some (int32_add st.generation 1) = _
      rw [int32_add_one_eq st.generation hmin hmax]
    · intro j hj
      rw [hframe j hj]
  · intro s v r o h j hj
    exact create_gen_frame D s v r o h j hj
  · intro s r o h j hj
    exact createEmpty_gen_frame D s r o h j hj

/-- Witness for C3_generation_protocol: a fresh chunk's slot 5 has
generation 1, and releasing the held slot 0 of a concrete one-slot pool
bumps its generation from 1 to 2. -/
theorem C3_generation_protocol_witness :
    (((allocateChunk natOps (PoolState.start Nat)).1.slots[(PoolState.start Nat).slots.length + 5]?).map
      Storage.generation = some 1) ∧
    (∃ r, ObjectPool.release natOps exPool1 ⟨some 0, true⟩ = some r ∧
      (r.slots[0]?).map Storage.generation = some ((1 : Int) + 1) ∧
      (∀ j, j ≠ 0 →
        (r.slots[j]?).map Storage.generation = (exPool1.slots[j]?).map Storage.generation)) :=
  ⟨(C3_generation_protocol natOps).2.1 (PoolState.start Nat) 5 (by decide),
   (C3_generation_protocol natOps).2.2.1 exPool1 0 ⟨7, none, 1⟩ (by decide) (by decide) (by decide)⟩

/-- Claim C4 (sequential executions): an observing handle minted via
`get_weak` from the owner of a live slot is alive in the minting state;
after that element is retired through `ObjectPool::release` the handle
reports not-alive; and if a later `create` reuses the same slot for a new
element B, the old handle still reports not-alive. (The 32-bit generation
is assumed within range, per the spec's no-wraparound assumption.) -/
theorem C4_staleness (D : DataOps α) (s : PoolState α) (i : Nat) (st : Storage α)
    (hst : s.slots[i]? = some st)
    (hmin : INT32_MIN ≤ st.generation) (hmax : st.generation ≤ INT32_MAX)
    (w : WeakPtr) (hw : OwnerPtr.getWeak s ⟨some i, true⟩ = some w) :
    WeakPtr.isAlive s w = some true ∧
    ∀ r, ObjectPool.release D s ⟨some i, true⟩ = some r →
      WeakPtr.isAlive r w = some false ∧
      ∀ v r2 o2, ObjectPool.create D r v = some (r2, o2) → o2.storage = some i →
        WeakPtr.isAlive r2 w = some false := by
  have hne := int32_add_one_ne st.generation hmin hmax
  dsimp only [OwnerPtr.getWeak] at hw
  rw [hst] at hw
  replace hw := Option.some_injective _ hw
  subst hw
  have hlen : i < s.slots.length := (List.getElem?_eq_some.mp hst).1
  obtain ⟨r0, hr0, _, hslot0, _, hlen0, _, _, _⟩ := release_spec D s i st hst
  refine ⟨?_, ?_⟩
  · unfold WeakPtr.isAlive
    dsimp only
    rw [hst]
    simp
  · intro r hr
    rw [hr0] at hr
    replace hr := Option.some_injective _ hr
    subst hr
    constructor
    · unfold WeakPtr.isAlive
      dsimp only
      rw [hslot0]
      simp only [Option.map_some', Option.some.injEq]
      rw [beq_eq_false_iff_ne]
      exact fun he => hne he.symm
    · intro v r2 o2 hc _
      have hfr := create_gen_frame D r0 v r2 o2 hc i (by rw [hlen0]; exact hlen)
      rw [hslot0] at hfr
      simp only [Option.map_some'] at hfr
      obtain ⟨st2, hst2, hgen2⟩ := Option.map_eq_some'.mp hfr
      unfold WeakPtr.isAlive
      dsimp only
      rw [hst2]
      simp only [Option.map_some', Option.some.injEq]
      rw [beq_eq_false_iff_ne]
      intro he
      exact hne (he.trans hgen2).symm

/-- Witness for C4_staleness: the one-slot pool `exPool1`; the weak handle
minted from the owner of slot 0 is alive, dead after release, and still
dead after a new element is created into the recycled slot 0. -/
theorem C4_staleness_witness :
    exPool1.slots[0]? = some ⟨7, none, 1⟩ ∧
    OwnerPtr.getWeak exPool1 ⟨some 0, true⟩ = some ⟨1, some 0⟩ ∧
    (WeakPtr.isAlive exPool1 ⟨1, some 0⟩ = some true ∧
     ∀ r, ObjectPool.release natOps exPool1 ⟨some 0, true⟩ = some r →
       WeakPtr.isAlive r ⟨1, some 0⟩ = some false ∧
       ∀ v r2 o2, ObjectPool.create natOps r v = some (r2, o2) → o2.storage = some 0 →
         WeakPtr.isAlive r2 ⟨1, some 0⟩ = some false) :=
  ⟨by decide, by decide,
   C4_staleness natOps exPool1 0 ⟨7, none, 1⟩ (by decide) (by decide) (by decide)
     ⟨1, some 0⟩ (by decide)⟩

/-- Claim C6: with the free list empty (the only situation in which
`get_storage` calls it), `allocate_chunk` appends exactly 64
default-constructed slots (data default, generation 1), links slots 1..62
into the free list (slot k's `next` is slot k+1 for k = 1..61, slot 62
terminated with null), makes slot 1 the new free-list head, reserves slot
63 as the chunk-tracking node (its `next` is the old chunk list, it is
never linked into the free list), returns slot 0 directly to the caller,
increments `storage_count_` by the full 64, and leaves all pre-existing
slots untouched — so addressable capacity grows by 64 and usable capacity
by 63 (62 free-listed plus the returned slot). -/
theorem C6_allocate_chunk (D : DataOps α) (s : PoolState α) (hh : s.head = none) :
    CHUNK_SIZE = 64 ∧
    (allocateChunk D s).2 = s.slots.length ∧
    (allocateChunk D s).1.slots.length = s.slots.length + 64 ∧
    (allocateChunk D s).1.storageCount = int32_add s.storageCount 64 ∧
    (∀ k, k < 64 →
      ((allocateChunk D s).1.slots[s.slots.length + k]?).map Storage.generation = some 1 ∧
      ((allocateChunk D s).1.slots[s.slots.length + k]?).map Storage.data = some D.dflt) ∧
    (allocateChunk D s).1.head = some (s.slots.length + 1) ∧
    (∀ k, 1 ≤ k → k ≤ 61 →
      ((allocateChunk D s).1.slots[s.slots.length + k]?).map Storage.next =
        some (some (s.slots.length + k + 1))) ∧
    ((allocateChunk D s).1.slots[s.slots.length + 62]?).map Storage.next = some none ∧
    (allocateChunk D s).1.chunkList = some (s.slots.length + 63) ∧
    ((allocateChunk D s).1.slots[s.slots.length + 63]?).map Storage.next = some s.chunkList ∧
    (∀ k, k ≤ 62 →
      ((allocateChunk D s).1.slots[s.slots.length + k]?).map Storage.next ≠
        some (some (s.slots.length + 63))) ∧
    (∀ j, j < s.slots.length → (allocateChunk D s).1.slots[j]? = s.slots[j]?) := by
  have hnext : ∀ k, k < 64 →
      ((allocateChunk D s).1.slots[s.slots.length + k]?).map Storage.next =
        some (mkChunkSlot D s.slots.length k s.head s.chunkList).next := by
    intro k hk
    rw [allocateChunk_slots_new D s k (by simpa [CHUNK_SIZE] using hk)]
    rfl
  refine ⟨rfl, rfl, ?_, rfl, ?_, rfl, ?_, ?_, rfl, ?_, ?_, ?_⟩
  · rw [allocateChunk_length]
    rfl
  · intro k hk
    rw [allocateChunk_slots_new D s k (by simpa [CHUNK_SIZE] using hk)]
    exact ⟨rfl, rfl⟩
  · intro k hk1 hk2
    rw [hnext k (by omega)]
    simp only [mkChunkSlot]
    rw [if_pos ⟨hk1, by simp [CHUNK_SIZE]; omega⟩]
  · rw [hnext 62 (by omega)]
    simp only [mkChunkSlot]
    rw [if_neg (by simp [CHUNK_SIZE]), if_pos (by simp [CHUNK_SIZE]), hh]
  · rw [hnext 63 (by omega)]
    simp only [mkChunkSlot]
    rw [if_neg (by simp [CHUNK_SIZE]), if_neg (by simp [CHUNK_SIZE]),
      if_pos (by simp [CHUNK_SIZE])]
  · intro k hk
    rw [hnext k (by omega)]
    simp only [mkChunkSlot, CHUNK_SIZE]
    intro hcontra
    by_cases h1 : 1 ≤ k ∧ k + 1 ≤ 64 - 2
    · rw [if_pos h1] at hcontra
      have := Option.some_injective _ (Option.some_injective _ hcontra)
      omega
    · rw [if_neg h1] at hcontra
      by_cases h2 : k = 64 - 2
      · rw [if_pos h2] at hcontra
        rw [hh] at hcontra
        exact Option.noConfusion (Option.some_injective _ hcontra)
      · rw [if_neg h2] at hcontra
        rw [if_neg (by omega)] at hcontra
        exact Option.noConfusion (Option.some_injective _ hcontra)
  · intro j hj
    exact allocateChunk_slots_old D s j hj

/-- Witness for C6_allocate_chunk: the first chunk of a fresh pool. -/
theorem C6_allocate_chunk_witness :
    (PoolState.start Nat).head = none ∧
    (allocateChunk natOps (PoolState.start Nat)).1.slots.length =
      (PoolState.start Nat).slots.length + 64 ∧
    (allocateChunk natOps (PoolState.start Nat)).1.head =
      some ((PoolState.start Nat).slots.length + 1) :=
  ⟨rfl, (C6_allocate_chunk natOps (PoolState.start Nat) rfl).2.2.1,
   (C6_allocate_chunk natOps (PoolState.start Nat) rfl).2.2.2.2.2.1⟩

theorem setCheckEmpty_getStorage (D : DataOps α) (s : PoolState α) (b : Bool) :
    getStorage D (ObjectPool.setCheckEmpty s b) =
      (getStorage D s).map (fun p => ⟨ObjectPool.setCheckEmpty p.1 b, p.2⟩) := by
  cases hh : s.head with
  | none =>
    rw [getStorage_head_none D _ (show (ObjectPool.setCheckEmpty s b).head = none from hh),
      getStorage_head_none D s hh]
    rfl
  | some res =>
    rw [getStorage_head_some D _ res (show (ObjectPool.setCheckEmpty s b).head = some res from hh),
      getStorage_head_some D s res hh]
    show (s.slots[res]?).map _ = _
    cases s.slots[res]? <;> rfl


theorem release_storage_some (D : DataOps α) (s : PoolState α) (o : OwnerPtr) (i : Nat)
    (ho : o.storage = some i) :
    ObjectPool.release D s o =
      match s.slots[i]? with
      | none => none
      | some _ => some (releaseStorage (updateSlot s i (destroyData D)) i) := by
  dsimp only [ObjectPool.release]
  rw [ho]

theorem setCheckEmpty_release (D : DataOps α) (s : PoolState α) (b : Bool) (o : OwnerPtr) :
    ObjectPool.release D (ObjectPool.setCheckEmpty s b) o =
      (ObjectPool.release D s o).map (fun r => ObjectPool.setCheckEmpty r b) := by
  cases ho : o.storage with
  | none =>
    dsimp only [ObjectPool.release]
    rw [ho]
    rfl
  | some i =>
    rw [release_storage_some D (ObjectPool.setCheckEmpty s b) o i ho,
      release_storage_some D s o i ho]
    show (match s.slots[i]? with
      | none => none
      | some _ =>
        some (releaseStorage (updateSlot (ObjectPool.setCheckEmpty s b) i (destroyData D)) i)) =
      Option.map (fun r => ObjectPool.setCheckEmpty r b)
        (match s.slots[i]? with
         | none => none
         | some _ => some (releaseStorage (updateSlot s i (destroyData D)) i))
    cases hst : s.slots[i]? with
    | none => rfl
    | some st => rfl

/-- Claim C8: `set_check_empty` stores the flag and changes nothing else,
and the flag is consulted by no other operation: `create`, `create_empty`,
`release` and the destructor's chunk walk behave identically for both flag
values (their results differ at most in the stored flag itself, and the
destructor frees exactly the same chunks — no leak validation or logging
depends on it). -/
theorem C8_check_empty_flag (D : DataOps α) (s : PoolState α) (b : Bool) :
    (ObjectPool.setCheckEmpty s b).slots = s.slots ∧
    (ObjectPool.setCheckEmpty s b).head = s.head ∧
    (ObjectPool.setCheckEmpty s b).chunkList = s.chunkList ∧
    (ObjectPool.setCheckEmpty s b).storageCount = s.storageCount ∧
    (ObjectPool.setCheckEmpty s b).checkEmptyFlag = b ∧
    (∀ v, ObjectPool.create D (ObjectPool.setCheckEmpty s b) v =
      (ObjectPool.create D s v).map (fun p => ⟨ObjectPool.setCheckEmpty p.1 b, p.2⟩)) ∧
    (ObjectPool.createEmpty D (ObjectPool.setCheckEmpty s b) =
      (ObjectPool.createEmpty D s).map (fun p => ⟨ObjectPool.setCheckEmpty p.1 b, p.2⟩)) ∧
    (∀ o, ObjectPool.release D (ObjectPool.setCheckEmpty s b) o =
      (ObjectPool.release D s o).map (fun r => ObjectPool.setCheckEmpty r b)) ∧
    ObjectPool.destructorChunks (ObjectPool.setCheckEmpty s b) =
      ObjectPool.destructorChunks s := by
  refine ⟨rfl, rfl, rfl, rfl, rfl, ?_, ?_, setCheckEmpty_release D s b, rfl⟩
  · intro v
    unfold ObjectPool.create
    rw [setCheckEmpty_getStorage D s b]
    cases getStorage D s <;> rfl
  · unfold ObjectPool.createEmpty
    rw [setCheckEmpty_getStorage D s b]
    cases getStorage D s <;> rfl

theorem genInv_getElem? (s : PoolState α) (hg : GenInv s) (i : Nat) (st : Storage α)
    (h : s.slots[i]? = some st) : 1 ≤ st.generation := by
  have hmem : st ∈ s.slots := List.mem_iff_getElem?.mpr ⟨i, h⟩
  exact hg st hmem

theorem genInv_of_getElem? (s : PoolState α)
    (h : ∀ (i : Nat) (st : Storage α), s.slots[i]? = some st → 1 ≤ st.generation) : GenInv s := by
  intro st hmem
  have hex : ∃ i : Nat, s.slots[i]? = some st := List.mem_iff_getElem?.mp hmem
  obtain ⟨i, hi⟩ := hex
  exact h i st hi

theorem genBound_getElem? (s : PoolState α) (hb : GenBound s) (i : Nat) (st : Storage α)
    (h : s.slots[i]? = some st) : st.generation < INT32_MAX := by
  have hmem : st ∈ s.slots := List.mem_iff_getElem?.mpr ⟨i, h⟩
  exact hb st hmem

theorem allocateChunk_genInv (D : DataOps α) (s : PoolState α) (hg : GenInv s) :
    GenInv (allocateChunk D s).1 := by
  intro st hmem
  rcases List.mem_append.mp hmem with hold | hnew
  · exact hg st hold
  · obtain ⟨k, _, hk⟩ := List.mem_map.mp hnew
    rw [← hk]
    exact le_refl 1

theorem getStorage_genInv (D : DataOps α) (s : PoolState α) (p : PoolState α × Nat)
    (h : getStorage D s = some p) (hg : GenInv s) : GenInv p.1 := by
  rcases getStorage_cases D s p.1 p.2 (by rw [h]) with ⟨_, heq⟩ | ⟨st, _, _, heq⟩
  · have hp : p.1 = (allocateChunk D s).1 := congrArg Prod.fst heq
    rw [hp]
    exact allocateChunk_genInv D s hg
  · rw [heq]
    exact hg

theorem updateSlot_genInv (s : PoolState α) (i : Nat) (f : Storage α → Storage α)
    (hg : GenInv s) (hf : ∀ st, st ∈ s.slots → 1 ≤ (f st).generation) :
    GenInv (updateSlot s i f) := by
  apply genInv_of_getElem?
  intro j st hj
  rw [updateSlot_slots_getElem?] at hj
  by_cases hji : j = i
  · rw [if_pos hji] at hj
    obtain ⟨st0, hst0, hfst0⟩ := Option.map_eq_some'.mp hj
    rw [← hfst0]
    exact hf st0 (List.mem_iff_getElem?.mpr ⟨j, hst0⟩)
  · rw [if_neg hji] at hj
    exact genInv_getElem? s hg j st hj

/-- Claim C10: a default-constructed or cleared observing handle stores the
sentinel generation -1 with a null slot reference; an empty observing
handle reports `is_alive()` and `is_alive_unsafe()` false in every state;
every slot's generation is at least 1 in every reachable state (generation
positivity holds initially, is created by chunk allocation, and is
preserved by `create`, `create_empty` and — under the spec's no-wraparound
assumption `GenBound` — by `release`); hence the sentinel -1 never equals
any slot's generation. -/
theorem C10_sentinel (D : DataOps α) :
    WeakPtr.mkEmpty.generation = -1 ∧
    WeakPtr.mkEmpty.storage = none ∧
    (∀ w, (WeakPtr.clear w).generation = -1 ∧ (WeakPtr.clear w).storage = none) ∧
    (∀ (s : PoolState α) (w : WeakPtr), w.storage = none →
      WeakPtr.isAlive s w = some false ∧ WeakPtr.isAliveUnsafe s w = some false) ∧
    GenInv (PoolState.start α) ∧
    (∀ s : PoolState α, GenInv s → GenInv (allocateChunk D s).1) ∧
    (∀ (s : PoolState α) (v : α) (r : PoolState α) (o : OwnerPtr),
      ObjectPool.create D s v = some (r, o) → GenInv s → GenInv r) ∧
    (∀ (s r : PoolState α) (o : OwnerPtr),
      ObjectPool.createEmpty D s = some (r, o) → GenInv s → GenInv r) ∧
    (∀ (s r : PoolState α) (i : Nat),
      GenInv s → GenBound s → ObjectPool.release D s ⟨some i, true⟩ = some r → GenInv r) ∧
    (∀ s : PoolState α, GenInv s → ∀ st ∈ s.slots, (-1 : Int) ≠ st.generation) := by
  refine ⟨rfl, rfl, fun _ => ⟨rfl, rfl⟩, ?_, ?_, allocateChunk_genInv D, ?_, ?_, ?_, ?_⟩
  · intro s w hw
    constructor
    · unfold WeakPtr.isAlive
      rw [hw]
    · unfold WeakPtr.isAliveUnsafe
      rw [hw]
  · intro st hmem
    exact absurd hmem (List.not_mem_nil st)
  · intro s v r o h hg
    unfold ObjectPool.create at h
    cases hgs : getStorage D s with
    | none => rw [hgs] at h; exact Option.noConfusion h
    | some p =>
      rw [hgs] at h
      simp only [Option.map_some'] at h
      have h1 : updateSlot p.1 p.2 (initData v) = r :=
        congrArg Prod.fst (Option.some_injective _ h)
      rw [← h1]
      have hp := getStorage_genInv D s p hgs hg
      exact updateSlot_genInv p.1 p.2 (initData v) hp (fun st hmem => hp st hmem)
  · intro s r o h hg
    unfold ObjectPool.createEmpty at h
    cases hgs : getStorage D s with
    | none => rw [hgs] at h; exact Option.noConfusion h
    | some p =>
      rw [hgs] at h
      simp only [Option.map_some'] at h
      have h1 : p.1 = r := congrArg Prod.fst (Option.some_injective _ h)
      rw [← h1]
      exact getStorage_genInv D s p hgs hg
  · intro s r i hg hb hr
    cases hst : s.slots[i]? with
    | none => rw [release_eq_none D s i hst] at hr; exact Option.noConfusion hr
    | some st =>
      obtain ⟨r0, hr0, _, hslot0, hframe0, _, _, _, _⟩ := release_spec D s i st hst
      rw [hr0] at hr
      replace hr := Option.some_injective _ hr
      subst hr
      apply genInv_of_getElem?
      intro j st2 hj
      by_cases hji : j = i
      · subst hji
        rw [hslot0] at hj
        replace hj := Option.some_injective _ hj
        rw [← hj]
        exact int32_add_one_pos st.generation (genInv_getElem? s hg j st hst)
          (genBound_getElem? s hb j st hst)
      · rw [hframe0 j hji] at hj
        exact genInv_getElem? s hg j st2 hj
  · intro s hg st hmem
    have h1 : 1 ≤ st.generation := hg st hmem
    omega

/-- Witness for C10_sentinel: the empty handle is dead on a concrete pool,
and releasing held slot 0 of `exPool1` (generations in range) preserves
generation positivity. -/
theorem C10_sentinel_witness :
    WeakPtr.mkEmpty.storage = none ∧
    WeakPtr.isAlive exPool2 WeakPtr.mkEmpty = some false ∧
    GenInv exPool1 ∧ GenBound exPool1 ∧
    ObjectPool.release natOps exPool1 ⟨some 0, true⟩ =
      some ⟨[⟨0, none, 2⟩], some 0, false, none, 1⟩ ∧
    GenInv (⟨[⟨0, none, 2⟩], some 0, false, none, 1⟩ : PoolState Nat) :=
  ⟨rfl,
   ((C10_sentinel natOps).2.2.2.1 exPool2 WeakPtr.mkEmpty rfl).1,
   by decide, by decide, by decide,
   (C10_sentinel natOps).2.2.2.2.2.2.2.2.1 exPool1
     ⟨[⟨0, none, 2⟩], some 0, false, none, 1⟩ 0 (by decide) (by decide) (by decide)⟩
